import Mathlib

/-!
Verification of the tempo-synchronized mastering pipeline of this
repository: the tempo quantizer in `AutoSpark/base_time.py`
(`TimeCalculator`) and the mix-graph builder in `AutoSpark/pedaldsp.py`
(with its duplicate in `main.py`).  Machine floats of the Python source
are modelled as rationals; the buffer arithmetic of numpy is modelled
with an explicit broadcasting addition.
-/

namespace AutoSpark

/-! ## Tempo quantizer (`AutoSpark/base_time.py`) -/

/-- `TimeCalculator.__init__`, line 13: the tempo-doubling correction
`if bpm >= 100: bpm = bpm / 2`. -/
def correct_bpm (bpm : ℚ) : ℚ :=
  if bpm ≥ 100 then bpm / 2 else bpm

/-- `TimeCalculator.__init__`, line 15: `self.basic_time = 60000 / bpm`,
applied to the already corrected bpm. -/
def basic_time_of (corrected : ℚ) : ℚ := 60000 / corrected

/-- The composite `computeBasicTime`: correct the bpm, then take
milliseconds per beat. -/
def computeBasicTime (bpm : ℚ) : ℚ := basic_time_of (correct_bpm bpm)

/-- `computeBasicTime` with the one Python failure mode made explicit:
`60000 / bpm` raises `ZeroDivisionError` exactly when the corrected bpm
is zero, and succeeds (no exception) otherwise. -/
def computeBasicTimeE (bpm : ℚ) : Option ℚ :=
  let c := correct_bpm bpm
  if c = 0 then none else some (60000 / c)

/-- The body of the `for time in times` loop of
`TimeCalculator._calculate_time` (lines 22-28).  Python iterates the
list by index while the loop body appends to the same list, so the
iteration visits elements appended during the pass; `fuel` is the
remaining budget of the `stop` counter (the loop breaks once 15 halves
have been appended). -/
def calcLoop : ℕ → List ℚ → ℕ → List ℚ
  | 0, times, _ => times
  | fuel + 1, times, i =>
    if h : i < times.length then
      calcLoop fuel (times ++ [times.get ⟨i, h⟩ / 2]) (i + 1)
    else times

/-- `TimeCalculator._calculate_time`: run the growing-list halving loop
with the 15-append budget and return a copy of the list. -/
def calculate_time (times : List ℚ) : List ℚ := calcLoop 15 times 0

/-- The seed duration of `TimeCalculator._note` (lines 56-70): mode 0
multiplies the basic time by the rate, mode 1 divides; any other mode
leaves `fulls` unbound in the Python source (a `NameError`), modelled
as `none`. -/
def note_seed (basic_time rate : ℚ) (mode : ℕ) : Option ℚ :=
  if mode = 0 then some (basic_time * rate)
  else if mode = 1 then some (basic_time / rate)
  else none

/-- The pre-sort list `fulls` of `TimeCalculator._note`: the seed triad
`[note, note*1.5, note*2/3]` fed through `_calculate_time`. -/
def note_fulls (basic_time rate : ℚ) (mode : ℕ) : Option (List ℚ) :=
  (note_seed basic_time rate mode).map fun n =>
    calculate_time [n, n * 1.5, n * 2 / 3]

/-- `TimeCalculator._note`: `sorted_times = sorted(fulls)` — Python's
ascending stable sort, modelled by insertion sort on `≤`. -/
def note (basic_time rate : ℚ) (mode : ℕ) : Option (List ℚ) :=
  (note_fulls basic_time rate mode).map (List.insertionSort (· ≤ ·))

/-- Python `min` over the (nonempty) candidate list, as used on line 39
of `base_time.py`; the empty case raises in Python and is given the
junk value 0 here (it is never reached from `select_time`). -/
def listMin : List ℚ → ℚ
  | [] => 0
  | h :: t => t.foldl min h

/-- The closest-candidate loop of `TimeCalculator._select_time`
(lines 44-49): walk the list keeping the running minimal `|x - std|`
(`min_num`) and its first witness (`closest_num`); the update uses
strict `<`, so the first-seen candidate wins exact ties. -/
def closestLoop : List ℚ → ℚ → ℚ → ℚ → ℚ
  | [], _, _, closest => closest
  | t :: rest, std, min_num, closest =>
    if |t - std| < min_num then closestLoop rest std (|t - std|) t
    else closestLoop rest std min_num closest

/-- `TimeCalculator._select_time` (lines 32-54).  Python's
`min_num = float("inf")` makes the first iteration always update, so
the loop is entered here with the head as the current closest; an empty
candidate list leaves `closest_num` unbound in Python (`none` here). -/
def select_time (time_lists : List ℚ) (standard_value standard_range : ℚ)
    (double_mode : Bool) : Option ℚ :=
  match time_lists with
  | [] => none
  | h :: rest =>
    if listMin (h :: rest) ≥ standard_range then
      if double_mode then some (standard_value * 2) else some standard_value
    else
      let c := closestLoop rest standard_value (|h - standard_value|) h
      if double_mode then some (c * 2) else some c

/-- The spec's own description of the note family (§3/§9 of the spec,
read literally): each of the three seed values halved zero to five
times, grouped seed by seed. -/
def specHalvingFamily (n d t : ℚ) : List ℚ :=
  [n, n / 2, n / 4, n / 8, n / 16, n / 32,
   d, d / 2, d / 4, d / 8, d / 16, d / 32,
   t, t / 2, t / 4, t / 8, t / 16, t / 32]

/-- Python 3 `round(x, ndigits)` to an integer: round half to even
(the model works on exact rationals, so binary-float representation
effects are out of scope). -/
def pyRoundHalfEven (x : ℚ) : ℤ :=
  if x - ⌊x⌋ < 1 / 2 then ⌊x⌋
  else if x - ⌊x⌋ > 1 / 2 then ⌊x⌋ + 1
  else if Even ⌊x⌋ then ⌊x⌋ else ⌊x⌋ + 1

/-- Python 3 `round(x, ndigits)` with decimal digits kept. -/
def pyRound (x : ℚ) (ndigits : ℕ) : ℚ :=
  (pyRoundHalfEven (x * 10 ^ ndigits) : ℚ) / 10 ^ ndigits

/-- `TimeCalculator.reverb_pre_delay` (lines 72-86): note family at
rate 8 in divide mode, rounded to 2 decimals, then the four bands with
`double_mode = True`; returns `(roomER, roomLR, plate, hall)`. -/
def reverb_pre_delay (basic_time : ℚ) : Option (ℚ × ℚ × ℚ × ℚ) := do
  let pre_delay_raws ← note basic_time 8 1
  let pre_delays := pre_delay_raws.map (pyRound · 2)
  let roomER ← select_time pre_delays 0.6 1 true
  let roomLR ← select_time pre_delays 2 4 true
  let plate ← select_time pre_delays 10 20 true
  let hall ← select_time pre_delays 20 40 true
  return (roomER, roomLR, plate, hall)

/-- `TimeCalculator.compressor_release` (lines 88-102): note family at
rate 2 in multiply mode, rounded to 1 decimal, then the four bands with
`double_mode = False`; returns `(fast, medium, slow, limiter)`. -/
def compressor_release (basic_time : ℚ) : Option (ℚ × ℚ × ℚ × ℚ) := do
  let release_raws ← note basic_time 2 0
  let releases := release_raws.map (pyRound · 1)
  let fast ← select_time releases 100 200 false
  let medium ← select_time releases 350 500 false
  let slow ← select_time releases 500 1000 false
  let limiter ← select_time releases 450 800 false
  return (fast, medium, slow, limiter)

/-! ## Mix graph builder (`AutoSpark/pedaldsp.py`) -/

/-- The effect-node variants used by `pedaldsp.py`: the pedalboard
plugin nodes with their positional numeric parameters, `Board` for a
series chain (`pedalboard.Pedalboard([...])`) and `Mix` for the
parallel sum node (`pedalboard.Mix([...])`). -/
inductive EffectNode where
  | Gain (db : ℚ)
  | HighpassFilter (cutoff : ℚ)
  | PeakFilter (freq gain q : ℚ)
  | HighShelfFilter (freq gain q : ℚ)
  | Delay (seconds feedback mix : ℚ)
  | Reverb (room_size damping wet_level dry_level width freeze_mode : ℚ)
  | Compressor (threshold ratio attack release : ℚ)
  | Limiter (threshold release : ℚ)
  | Invert
  | Board (nodes : List EffectNode)
  | Mix (branches : List EffectNode)

/-- The child list of a series board (empty for non-board nodes). -/
def EffectNode.boardNodes : EffectNode → List EffectNode
  | .Board nodes => nodes
  | _ => []

/-- The delay-time parameter of a node, when it is a `Delay`. -/
def EffectNode.delaySeconds : EffectNode → Option ℚ
  | .Delay s _ _ => some s
  | _ => none

/-- The `delay` branch of `pedaldsp.reverb` (lines 63-67): its delay
time argument is `d / 8`, with no millisecond-to-second division,
unlike the three reverb branches below. -/
def reverb_delay (d : ℚ) : EffectNode :=
  .Board [.Gain (-20), .Delay (d / 8) 0 1, .Gain (-12)]

/-- The `short` branch of `pedaldsp.reverb` (lines 69-74). -/
def reverb_short (s : ℚ) : EffectNode :=
  .Board [.Gain (-20), .Delay (s / 1000) 0 1,
    .Reverb 0.2 0.35 1 0 1 0, .Gain (-12)]

/-- The `medium` branch of `pedaldsp.reverb` (lines 76-81). -/
def reverb_medium (m : ℚ) : EffectNode :=
  .Board [.Gain (-16), .Delay (m / 1000) 0.3 1,
    .Reverb 0.45 0.55 1 0 1 0, .Gain (-19)]

/-- The `long` branch of `pedaldsp.reverb` (lines 83-88). -/
def reverb_long (l : ℚ) : EffectNode :=
  .Board [.Gain (-12), .Delay (l / 1000) 0.6 1,
    .Reverb 0.6 0.7 1 0 1 0, .Gain (-23)]

/-- `pedaldsp.reverb(s, m, l, d)` (lines 61-102), with the global
`setting.revb_gain` made an explicit first argument. -/
def reverb (revb_gain s m l d : ℚ) : EffectNode :=
  .Board [.Mix [reverb_short s, reverb_medium m, reverb_long l,
      reverb_delay d],
    .PeakFilter 1450 (-4) 1.83, .PeakFilter 2300 5 0.51, .Gain revb_gain]

/-- `pedaldsp.master(comp_rel, lim_rel)` (lines 108-115). -/
def master (comp_rel lim_rel : ℚ) : EffectNode :=
  .Board [.Compressor (-10) 1.6 10 comp_rel, .Limiter (-3) lim_rel,
    .Gain (-0.5)]

/-- Module-level wiring `fx_master = master(release[3], release[2])`
(`pedaldsp.py` line 148), with the release tuple
`(fast, medium, slow, limiter)` of `compressor_release`. -/
def fx_master (release : ℚ × ℚ × ℚ × ℚ) : EffectNode :=
  master release.2.2.2 release.2.2.1

/-- Module-level wiring
`fx_revb = reverb(predelay[0], predelay[2], predelay[3], predelay[1])`
(`pedaldsp.py` line 146), with the pre-delay tuple
`(roomER, roomLR, plate, hall)` of `reverb_pre_delay`. -/
def fx_revb (revb_gain : ℚ) (predelay : ℚ × ℚ × ℚ × ℚ) : EffectNode :=
  reverb revb_gain predelay.1 predelay.2.2.1 predelay.2.2.2 predelay.2.1

/-! ## Buffers and the combine step -/

/-- A numpy 2-D audio array of shape `(channels, samples)`; `data c i`
reads sample `i` of channel `c`. -/
structure AudioBuffer where
  channels : ℕ
  samples : ℕ
  data : ℕ → ℕ → ℚ

/-- The numpy slice `buf[:, :n]`: keep at most the first `n` samples. -/
def sliceSamples (b : AudioBuffer) (n : ℕ) : AudioBuffer :=
  ⟨b.channels, min b.samples n, b.data⟩

/-- Numpy broadcast of one axis: two extents are compatible when they
agree or one of them is 1; otherwise addition raises. -/
def bcLen (a b : ℕ) : Option ℕ :=
  if a = b then some a
  else if a = 1 then some b
  else if b = 1 then some a
  else none

/-- Reading index along an axis of original extent `dim` after
broadcasting: a length-1 axis is stretched. -/
def bcIndex (dim i : ℕ) : ℕ := if dim = 1 then 0 else i

/-- Numpy elementwise `+` on 2-D arrays with broadcasting; `none`
models the `ValueError` raised on incompatible shapes. -/
def npAdd (x y : AudioBuffer) : Option AudioBuffer := do
  let c ← bcLen x.channels y.channels
  let n ← bcLen x.samples y.samples
  return ⟨c, n, fun ch i =>
    x.data (bcIndex x.channels ch) (bcIndex x.samples i) +
      y.data (bcIndex y.channels ch) (bcIndex y.samples i)⟩

/-- `pedaldsp.combine(vocal, revb, inst)` (lines 117-123): truncate the
three buffers to `min(vocal.shape[1], inst.shape[1])` samples, then sum
`voc_new + inst_new + revb_new` (numpy left-to-right). -/
def combine (vocal revb inst : AudioBuffer) : Option AudioBuffer := do
  let min_length := min vocal.samples inst.samples
  let voc_new := sliceSamples vocal min_length
  let revb_new := sliceSamples revb min_length
  let inst_new := sliceSamples inst min_length
  let vi ← npAdd voc_new inst_new
  npAdd vi revb_new

/-- `np.tile(eff_voc, (2, 1))` (`pedaldsp.py` line 152): duplicate the
mono channel into two identical channels. -/
def stereoTile (b : AudioBuffer) : AudioBuffer :=
  ⟨2, b.samples, fun _ i => b.data 0 i⟩

end AutoSpark

open AutoSpark

theorem calculate_time_raw (n d t : ℚ) :
    calculate_time [n, d, t] =
      [n, d, t, n / 2, d / 2, t / 2, n / 2 / 2, d / 2 / 2, t / 2 / 2,
       n / 2 / 2 / 2, d / 2 / 2 / 2, t / 2 / 2 / 2,
       n / 2 / 2 / 2 / 2, d / 2 / 2 / 2 / 2, t / 2 / 2 / 2 / 2,
       n / 2 / 2 / 2 / 2 / 2, d / 2 / 2 / 2 / 2 / 2, t / 2 / 2 / 2 / 2 / 2] := by
  simp [calculate_time, calcLoop, List.get]

theorem calculate_time_triple (n d t : ℚ) :
    calculate_time [n, d, t] =
      [n, d, t, n / 2, d / 2, t / 2, n / 4, d / 4, t / 4,
       n / 8, d / 8, t / 8, n / 16, d / 16, t / 16,
       n / 32, d / 32, t / 32] := by
  rw [calculate_time_raw]
  norm_num [div_div]

/-- C1: for every `basicTime > 0` and `rate > 0`, in both multiply
(mode 0) and divide (mode 1) mode, `_note` returns a sorted-ascending
list of exactly 18 elements, whose pre-sort first three elements are
the seed, `seed * 1.5` and `seed * 2 / 3`, the remaining 15 produced by
the halving loop run to completion. -/
theorem note_family_spec (basic_time rate : ℚ) (hbt : 0 < basic_time)
    (hrate : 0 < rate) (mode : ℕ) (hm : mode = 0 ∨ mode = 1) :
    ∃ s fulls sorted_times,
      note_seed basic_time rate mode = some s ∧
      note_fulls basic_time rate mode = some fulls ∧
      note basic_time rate mode = some sorted_times ∧
      fulls.take 3 = [s, s * 1.5, s * 2 / 3] ∧
      fulls.length = 18 ∧
      sorted_times.length = 18 ∧
      List.Sorted (· ≤ ·) sorted_times := by
  rcases hm with hm | hm <;> subst hm
  · have hraw := calculate_time_raw (basic_time * rate)
      (basic_time * rate * 1.5) (basic_time * rate * 2 / 3)
    refine ⟨basic_time * rate,
      calculate_time [basic_time * rate, basic_time * rate * 1.5,
        basic_time * rate * 2 / 3],
      List.insertionSort (· ≤ ·) (calculate_time [basic_time * rate,
        basic_time * rate * 1.5, basic_time * rate * 2 / 3]),
      rfl, rfl, rfl, ?_, ?_, ?_, ?_⟩
    · rw [hraw]; rfl
    · rw [hraw]; rfl
    · rw [List.length_insertionSort, hraw]; rfl
    · exact List.sorted_insertionSort _ _
  · have hraw := calculate_time_raw (basic_time / rate)
      (basic_time / rate * 1.5) (basic_time / rate * 2 / 3)
    refine ⟨basic_time / rate,
      calculate_time [basic_time / rate, basic_time / rate * 1.5,
        basic_time / rate * 2 / 3],
      List.insertionSort (· ≤ ·) (calculate_time [basic_time / rate,
        basic_time / rate * 1.5, basic_time / rate * 2 / 3]),
      rfl, rfl, rfl, ?_, ?_, ?_, ?_⟩
    · rw [hraw]; rfl
    · rw [hraw]; rfl
    · rw [List.length_insertionSort, hraw]; rfl
    · exact List.sorted_insertionSort _ _

/-- Witness for C1 at `basicTime = 1000`, `rate = 2`, multiply mode. -/
theorem note_family_spec_witness :
    (0 : ℚ) < 1000 ∧ (0 : ℚ) < 2 ∧
      ∃ s fulls sorted_times,
        note_seed 1000 2 0 = some s ∧
        note_fulls 1000 2 0 = some fulls ∧
        note 1000 2 0 = some sorted_times ∧
        fulls.take 3 = [s, s * 1.5, s * 2 / 3] ∧
        fulls.length = 18 ∧
        sorted_times.length = 18 ∧
        List.Sorted (· ≤ ·) sorted_times :=
  ⟨by norm_num, by norm_num,
    note_family_spec 1000 2 (by norm_num) (by norm_num) 0 (Or.inl rfl)⟩

/-- C2: the growing-list halving loop with budget 15, started on any
seed triad `[n, d, t]`, produces after sorting exactly the sorted
18-element family obtained by halving each of the three seeds zero to
five times. -/
theorem calculate_time_refines_seed_halving (n d t : ℚ) :
    List.insertionSort (· ≤ ·) (calculate_time [n, d, t]) =
      List.insertionSort (· ≤ ·) (specHalvingFamily n d t) := by
  have hperm : (calculate_time [n, d, t]).Perm (specHalvingFamily n d t) := by
    rw [calculate_time_triple]
    simp only [specHalvingFamily]
    rw [← Multiset.coe_eq_coe]
    simp only [← Multiset.cons_coe, Multiset.coe_nil, ← Multiset.singleton_add]
    abel
  exact List.eq_of_perm_of_sorted
    (((List.perm_insertionSort _ _).trans hperm).trans
      (List.perm_insertionSort _ _).symm)
    (List.sorted_insertionSort _ _) (List.sorted_insertionSort _ _)

/-- C8: the basic time `60000 / correctedBpm` is strictly decreasing in
the corrected BPM: if both corrected values are positive and the first
is smaller, the first gets the strictly larger basic time. -/
theorem computeBasicTime_strict_anti (b1 b2 : ℚ) (h1 : 0 < correct_bpm b1)
    (h12 : correct_bpm b1 < correct_bpm b2) :
    computeBasicTime b2 < computeBasicTime b1 := by
  unfold computeBasicTime basic_time_of
  exact div_lt_div_of_pos_left (by norm_num) h1 h12

/-- Witness for C8 at raw tempos 50 and 120 (corrected 50 and 60). -/
theorem computeBasicTime_strict_anti_witness :
    0 < correct_bpm 50 ∧ correct_bpm 50 < correct_bpm 120 ∧
      computeBasicTime 120 < computeBasicTime 50 :=
  ⟨by norm_num [correct_bpm], by norm_num [correct_bpm],
    computeBasicTime_strict_anti 50 120 (by norm_num [correct_bpm])
      (by norm_num [correct_bpm])⟩

/-- C9: `computeBasicTime` fails only on non-positive tempo: every
`bpm > 0` yields `60000 / correctedBpm` without raising, and a failure
(`none`, Python's `ZeroDivisionError`) implies `bpm ≤ 0`. -/
theorem computeBasicTimeE_total (bpm : ℚ) :
    (0 < bpm → computeBasicTimeE bpm = some (60000 / correct_bpm bpm)) ∧
    (computeBasicTimeE bpm = none → bpm ≤ 0) := by
  constructor
  · intro h
    have hc : 0 < correct_bpm bpm := by
      unfold correct_bpm; split
      · linarith
      · exact h
    simp [computeBasicTimeE, hc.ne']
  · intro h
    by_contra hpos
    push_neg at hpos
    have hc : 0 < correct_bpm bpm := by
      unfold correct_bpm; split
      · linarith
      · exact hpos
    simp [computeBasicTimeE, hc.ne'] at h

/-- Invariant of the closest-candidate loop of `_select_time`: with the
running minimum equal to the distance of the running best, the loop
either keeps the best (and everything visited is at least as far), or
returns a strictly closer element whose earlier neighbours are all
strictly farther and later neighbours no closer. -/
theorem closestLoop_spec (std : ℚ) :
    ∀ (ts : List ℚ) (m best : ℚ), m = |best - std| →
      (closestLoop ts std m best = best ∧ ∀ x ∈ ts, m ≤ |x - std|) ∨
      (∃ l1 l2, ts = l1 ++ closestLoop ts std m best :: l2 ∧
        |closestLoop ts std m best - std| < m ∧
        (∀ x ∈ l1, |closestLoop ts std m best - std| < |x - std|) ∧
        (∀ x ∈ l2, |closestLoop ts std m best - std| ≤ |x - std|)) := by
  intro ts
  induction ts with
  | nil =>
    intro m best _
    exact Or.inl ⟨rfl, by simp⟩
  | cons t rest ih =>
    intro m best hm
    by_cases hc : |t - std| < m
    · simp only [closestLoop, if_pos hc]
      rcases ih (|t - std|) t rfl with ⟨heq, hall⟩ | ⟨l1, l2, hsp, hlt2, hl1, hl2⟩
      · refine Or.inr ⟨[], rest, by simp [heq], ?_, by simp, ?_⟩
        · rw [heq]; exact hc
        · intro x hx; rw [heq]; exact hall x hx
      · refine Or.inr ⟨t :: l1, l2, by rw [List.cons_append, ← hsp],
          hlt2.trans hc, ?_, hl2⟩
        intro x hx
        rcases List.mem_cons.mp hx with rfl | hx
        · exact hlt2
        · exact hl1 x hx
    · push_neg at hc
      simp only [closestLoop, if_neg (not_lt.mpr hc)]
      rcases ih m best hm with ⟨heq, hall⟩ | ⟨l1, l2, hsp, hlt2, hl1, hl2⟩
      · refine Or.inl ⟨heq, ?_⟩
        intro x hx
        rcases List.mem_cons.mp hx with rfl | hx
        · exact hc
        · exact hall x hx
      · refine Or.inr ⟨t :: l1, l2, by rw [List.cons_append, ← hsp],
          hlt2, ?_, hl2⟩
        intro x hx
        rcases List.mem_cons.mp hx with rfl | hx
        · exact hlt2.trans_le hc
        · exact hl1 x hx

/-- C3: for every non-empty candidate list, `_select_time` returns the
fallback target (doubled iff `double_mode`) when the minimum candidate
reaches the range threshold; otherwise it returns a candidate (doubled
iff `double_mode`) no farther from the target than any candidate, and
strictly closer than every candidate seen before it (exact ties go to
the first-seen candidate, since the update comparison is strict). -/
theorem select_time_spec (time_lists : List ℚ)
    (standard_value standard_range : ℚ) (double_mode : Bool)
    (h : time_lists ≠ []) :
    (listMin time_lists ≥ standard_range →
      select_time time_lists standard_value standard_range double_mode =
        some (if double_mode then standard_value * 2 else standard_value)) ∧
    (listMin time_lists < standard_range →
      ∃ c l1 l2,
        select_time time_lists standard_value standard_range double_mode =
          some (if double_mode then c * 2 else c) ∧
        time_lists = l1 ++ c :: l2 ∧
        (∀ x ∈ time_lists, |c - standard_value| ≤ |x - standard_value|) ∧
        (∀ x ∈ l1, |c - standard_value| < |x - standard_value|)) := by
  obtain ⟨hd, tl, rfl⟩ := List.exists_cons_of_ne_nil h
  constructor
  · intro hge
    cases double_mode <;> simp [select_time, if_pos hge]
  · intro hlt
    have hnot : ¬ listMin (hd :: tl) ≥ standard_range := not_le.mpr hlt
    rcases closestLoop_spec standard_value tl (|hd - standard_value|) hd rfl
      with ⟨heq, hall⟩ | ⟨l1, l2, hsp, hlt2, hl1, hl2⟩
    · refine ⟨hd, [], tl, ?_, by simp, ?_, by simp⟩
      · cases double_mode <;> simp [select_time, if_neg hnot, heq]
      · intro x hx
        rcases List.mem_cons.mp hx with rfl | hx
        · exact le_refl _
        · exact hall x hx
    · set c := closestLoop tl standard_value (|hd - standard_value|) hd with hc
      refine ⟨c, hd :: l1, l2, ?_, by simp [hsp], ?_, ?_⟩
      · cases double_mode <;> simp [select_time, if_neg hnot, ← hc]
      · intro x hx
        rcases List.mem_cons.mp hx with rfl | hx
        · exact hlt2.le
        · rw [hsp] at hx
          rcases List.mem_append.mp hx with hx | hx
          · exact (hl1 x hx).le
          · rcases List.mem_cons.mp hx with rfl | hx
            · exact le_refl _
            · exact hl2 x hx
      · intro x hx
        rcases List.mem_cons.mp hx with rfl | hx
        · exact hlt2
        · exact hl1 x hx

/-- Witness for C3 on the candidate list `[3, 1, 5]` with target 2,
threshold 10, no doubling: the branch hypotheses evaluate concretely
and the theorem applies. -/
theorem select_time_spec_witness :
    select_time [3, 1, 5] 2 10 false = some 3 ∧
      ((listMin [3, 1, 5] ≥ 10 →
        select_time [3, 1, 5] 2 10 false =
          some (if false then (2 : ℚ) * 2 else 2)) ∧
      (listMin [3, 1, 5] < 10 →
        ∃ c l1 l2,
          select_time [3, 1, 5] 2 10 false =
            some (if false then c * 2 else c) ∧
          [(3 : ℚ), 1, 5] = l1 ++ c :: l2 ∧
          (∀ x ∈ [(3 : ℚ), 1, 5], |c - 2| ≤ |x - 2|) ∧
          (∀ x ∈ l1, |c - 2| < |x - 2|))) :=
  ⟨by norm_num [select_time, listMin, closestLoop],
    select_time_spec [3, 1, 5] 2 10 false (by simp)⟩

/-- Witness for C9 at `bpm = 120` (corrected to 60, basic time 1000). -/
theorem computeBasicTimeE_total_witness :
    computeBasicTimeE 120 = some (60000 / correct_bpm 120) ∧
      (60000 / correct_bpm 120 : ℚ) = 1000 :=
  ⟨(computeBasicTimeE_total 120).1 (by norm_num), by norm_num [correct_bpm]⟩

/-- C4: the master chain is cross-wired: the mastering compressor's
release parameter is the ReleaseSet's limiter-band value (tuple index
3) and the limiter's release parameter is the slow-band value (tuple
index 2) — not the index-order wiring. -/
theorem fx_master_cross_wiring (fast medium slow limiter : ℚ) :
    fx_master (fast, medium, slow, limiter) =
      .Board [.Compressor (-10) 1.6 10 limiter, .Limiter (-3) slow,
        .Gain (-0.5)] := rfl

/-- C5: the reverb-send chain receives the PreDelaySet under the
permutation roomER→short, plate→medium, hall→long, roomLR→delay, i.e.
the call passes pre-delay tuple indices (0, 2, 3, 1) positionally. -/
theorem fx_revb_permutation (revb_gain roomER roomLR plate hall : ℚ) :
    fx_revb revb_gain (roomER, roomLR, plate, hall) =
      .Board [.Mix [reverb_short roomER, reverb_medium plate,
          reverb_long hall, reverb_delay roomLR],
        .PeakFilter 1450 (-4) 1.83, .PeakFilter 2300 5 0.51,
        .Gain revb_gain] := rfl

/-- C6 counterexample: at `preDelayDuck = 200` the delay branch's
`Delay` node carries delay time `200 / 8 = 25`, not the claimed
`(200 / 8) / 1000 = 0.025` seconds — the code performs no
millisecond-to-second conversion on this branch. -/
theorem reverb_delay_no_ms_conversion :
    ¬ (reverb_delay 200).boardNodes.map EffectNode.delaySeconds =
      [none, some (((200 : ℚ) / 8) / 1000), none] := by
  norm_num [reverb_delay, EffectNode.boardNodes, EffectNode.delaySeconds]

/-- C6 (amended): the delay branch of the reverb-send chain is
`Gain(-20) → Delay(preDelayDuck / 8, feedback 0, mix 1) → Gain(-12)`;
the delay-time argument passed to `Delay` is the duck pre-delay divided
by 8 with no millisecond-to-second conversion. -/
theorem reverb_delay_branch_structure (d : ℚ) :
    reverb_delay d =
        .Board [.Gain (-20), .Delay (d / 8) 0 1, .Gain (-12)] ∧
      (reverb_delay d).boardNodes.map EffectNode.delaySeconds =
        [none, some (d / 8), none] :=
  ⟨rfl, rfl⟩

theorem bcIndex_of_lt (dim i : ℕ) (h : i < dim) : bcIndex dim i = i := by
  unfold bcIndex
  split
  · omega
  · rfl

theorem bcIndex_one (i : ℕ) : bcIndex 1 i = 0 := rfl

/-- Shared reduction of `combine` for a mono vocal, stereo reverb and
stereo instrument whose reverb buffer is at least as long as the
truncation length. -/
theorem combine_some (vocal revb inst : AudioBuffer)
    (hv : vocal.channels = 1) (hr : revb.channels = 2)
    (hi : inst.channels = 2)
    (hrs : min vocal.samples inst.samples ≤ revb.samples) :
    ∃ out, combine vocal revb inst = some out ∧
      out.channels = 2 ∧
      out.samples = min vocal.samples inst.samples ∧
      ∀ c i, c < 2 → i < min vocal.samples inst.samples →
        out.data c i = vocal.data 0 i + inst.data c i + revb.data c i := by
  have hm1 : min vocal.samples (min vocal.samples inst.samples)
      = min vocal.samples inst.samples := min_eq_right (min_le_left _ _)
  have hm2 : min inst.samples (min vocal.samples inst.samples)
      = min vocal.samples inst.samples := min_eq_right (min_le_right _ _)
  have hm3 : min revb.samples (min vocal.samples inst.samples)
      = min vocal.samples inst.samples := min_eq_right hrs
  have hcomb : combine vocal revb inst =
      some ⟨2, min vocal.samples inst.samples, fun ch i =>
        (vocal.data (bcIndex 1 (bcIndex 2 ch))
            (bcIndex (min vocal.samples inst.samples)
              (bcIndex (min vocal.samples inst.samples) i)) +
          inst.data (bcIndex 2 (bcIndex 2 ch))
            (bcIndex (min vocal.samples inst.samples)
              (bcIndex (min vocal.samples inst.samples) i))) +
        revb.data (bcIndex 2 ch)
          (bcIndex (min vocal.samples inst.samples) i)⟩ := by
    simp [combine, npAdd, sliceSamples, bcLen, hv, hr, hi, hm1, hm2, hm3]
  refine ⟨_, hcomb, rfl, rfl, ?_⟩
  intro c i hc hilt
  have hb2 : bcIndex 2 c = c := bcIndex_of_lt 2 c hc
  have hbm : bcIndex (min vocal.samples inst.samples) i = i :=
    bcIndex_of_lt _ i hilt
  simp [hb2, hbm, bcIndex_one]

/-- C7: the combined buffer has exactly
`min(vocal.samples, inst.samples)` samples — each of the three operands
is truncated to that length before the sample-wise sum, and samples
beyond it are discarded. -/
theorem combine_length_min (vocal revb inst : AudioBuffer)
    (hv : vocal.channels = 1) (hr : revb.channels = 2)
    (hi : inst.channels = 2)
    (hrs : min vocal.samples inst.samples ≤ revb.samples) :
    ∃ out, combine vocal revb inst = some out ∧
      out.samples = min vocal.samples inst.samples := by
  obtain ⟨out, h1, _, h3, _⟩ := combine_some vocal revb inst hv hr hi hrs
  exact ⟨out, h1, h3⟩

/-- Witness for C7: an instrument of 5000 samples against a vocal of
7000 samples combines to exactly 5000 samples. -/
theorem combine_length_min_witness :
    (∃ out,
      combine ⟨1, 7000, fun _ _ => 0⟩ ⟨2, 7000, fun _ _ => 0⟩
          ⟨2, 5000, fun _ _ => 0⟩ = some out ∧
        out.samples = min 7000 5000) ∧ min 7000 5000 = 5000 :=
  ⟨combine_length_min _ _ _ rfl rfl rfl (by norm_num), by norm_num⟩

/-- C10: the dry-vocal operand of `combine` is the mono processed
vocal, broadcast across both stereo channels during the sum: every
channel `c < 2` of the output reads
`vocal[0][i] + inst[c][i] + revb[c][i]`, so both channels carry the
identical dry-vocal signal. -/
theorem combine_mono_broadcast (vocal revb inst : AudioBuffer)
    (hv : vocal.channels = 1) (hr : revb.channels = 2)
    (hi : inst.channels = 2)
    (hrs : min vocal.samples inst.samples ≤ revb.samples) :
    ∃ out, combine vocal revb inst = some out ∧
      ∀ c i, c < 2 → i < min vocal.samples inst.samples →
        out.data c i = vocal.data 0 i + inst.data c i + revb.data c i := by
  obtain ⟨out, h1, _, _, h4⟩ := combine_some vocal revb inst hv hr hi hrs
  exact ⟨out, h1, h4⟩

/-- Witness for C10 on small concrete buffers. -/
theorem combine_mono_broadcast_witness :
    ∃ out,
      combine ⟨1, 4, fun _ i => (i : ℚ)⟩ ⟨2, 4, fun c _ => (c : ℚ)⟩
          ⟨2, 3, fun _ _ => 1⟩ = some out ∧
        ∀ c i, c < 2 →
          i < min (AudioBuffer.mk 1 4 (fun _ i => (i : ℚ))).samples
            (AudioBuffer.mk 2 3 (fun _ _ => (1 : ℚ))).samples →
          out.data c i =
            (AudioBuffer.mk 1 4 (fun _ i => (i : ℚ))).data 0 i +
              (AudioBuffer.mk 2 3 (fun _ _ => (1 : ℚ))).data c i +
              (AudioBuffer.mk 2 4 (fun c _ => (c : ℚ))).data c i :=
  combine_mono_broadcast _ _ _ rfl rfl rfl (by norm_num)
